import Mathlib

/-!
EZ-Theme: API base-URL resolution and theme colours
(`src/src/utils/baseConfig.js`)

A shallow embedding of the configuration helpers `parseBoolean`, `parseArray`,
of `getApiBaseUrl`, and of `hexToRgb`, `calculateThemeColors` and
`THEME_CONFIG`, followed by theorems about them.

Modelling conventions.

* A JavaScript string is a list of characters (`JsString`).  Every operation
  used by the embedded code (`trim`, `split(',')`, `endsWith('/')`,
  `startsWith('/')`, `slice(0, -1)` after `endsWith('/')`, concatenation,
  comparison with a literal) acts the same on code points as on UTF-16 code
  units, because all characters they inspect lie in the Basic Multilingual
  Plane.
* `import.meta.env.X` is either a string or `undefined`: `Option JsString`.
* `getAvailableApiUrl` lives in `@/utils/apiAvailabilityChecker`, which is not
  part of the sources; its answer is a parameter of `getApiBaseUrl`
  (`none` stands for `null`/`undefined`).
* `new URL(window.location.href)` is a parameter as well: `some loc` when the
  constructor succeeds, `none` when it throws.
* The two regular expressions of `hexToRgb` are anchored at both ends and have
  no flag `m`; each is embedded as a matcher that returns its capture groups.
* Code that can throw returns `Except JsError _`.
-/

namespace EZTheme

/-- A JavaScript string. -/
abbrev JsString := List Char

/-- The values `parseBoolean` distinguishes by `typeof`. -/
inductive JsValue where
  | undefined : JsValue
  | boolean : Bool → JsValue
  | string : JsString → JsValue
  deriving DecidableEq, Repr

/-- An environment entry seen as a JavaScript value. -/
def JsValue.ofEnv : Option JsString → JsValue
  | none => JsValue.undefined
  | some s => JsValue.string s

/-- ECMAScript `WhiteSpace` and `LineTerminator` code points: the characters
that `String.prototype.trim` strips. -/
def isWhiteSpace (c : Char) : Bool :=
  let n := c.toNat
  n == 0x09 || n == 0x0A || n == 0x0B || n == 0x0C || n == 0x0D || n == 0x20 ||
  n == 0xA0 || n == 0x1680 || (0x2000 ≤ n && n ≤ 0x200A) ||
  n == 0x2028 || n == 0x2029 || n == 0x202F || n == 0x205F || n == 0x3000 ||
  n == 0xFEFF

/-- The method `String.prototype.trim`. -/
def trim (s : JsString) : JsString :=
  ((s.dropWhile isWhiteSpace).reverse.dropWhile isWhiteSpace).reverse

/-- The call `s.split(sep)` for a one-character separator. -/
def split (sep : Char) : JsString → List JsString
  | [] => [[]]
  | c :: cs =>
    if c = sep then [] :: split sep cs
    else
      match split sep cs with
      | [] => [[c]]
      | p :: ps => (c :: p) :: ps

/-- The method `String.prototype.toLowerCase`, as far as the comparison with
`'true'` can see it: the only characters whose lower-case form is one of
`t`, `r`, `u`, `e` are the ASCII letters themselves. -/
def toLowerCase (s : JsString) : JsString := s.map Char.toLower

/-- The call `s.endsWith(c)` for a one-character argument. -/
def endsWith (s : JsString) (c : Char) : Bool := s.getLast? == some c

/-- The call `s.startsWith(c)` for a one-character argument. -/
def startsWith (s : JsString) (c : Char) : Bool := s.head? == some c

/-- Truthiness of a string-or-undefined value. -/
def truthy : Option JsString → Bool
  | none => false
  | some s => !s.isEmpty

/-- The expression `v || d` for a string-or-undefined `v` and a string `d`. -/
def orElse (v : Option JsString) (d : JsString) : JsString :=
  match v with
  | some s => if s.isEmpty then d else s
  | none => d

/-- Source: `parseBoolean` (baseConfig.js, lines 8-14). -/
def parseBoolean (value : JsValue) (defaultValue : Bool) : Bool :=
  match value with
  | JsValue.boolean b => b
  | JsValue.string s => toLowerCase s == "true".toList
  | JsValue.undefined => defaultValue

/-- Source: `parseArray` (baseConfig.js, lines 23-26). -/
def parseArray (value : Option JsString) (defaultValue : List JsString) : List JsString :=
  match value with
  | none => defaultValue
  | some v =>
    if v.isEmpty || (trim v).isEmpty then defaultValue
    else ((split ',' v).map trim).filter (fun item => !item.isEmpty)

/-- The part of `import.meta.env` read by `getApiBaseUrl`. -/
structure Env where
  VITE_API_MIDDLEWARE_ENABLED : Option JsString
  VITE_API_MIDDLEWARE_URL : Option JsString
  VITE_API_MIDDLEWARE_PATH : Option JsString
  VITE_API_MIDDLEWARE_KEY : Option JsString
  VITE_API_URL_MODE : Option JsString
  VITE_STATIC_API_URLS : Option JsString
  VITE_AUTO_USE_SAME_PROTOCOL : Option JsString
  VITE_AUTO_APPEND_API_PATH : Option JsString
  VITE_AUTO_API_PATH : Option JsString
  deriving DecidableEq, Repr

/-- The two fields of `new URL(window.location.href)` that are read. -/
structure Location where
  protocol : JsString
  host : JsString
  deriving DecidableEq, Repr

/-- The middleware branch of `getApiBaseUrl` (lines 56-68). -/
def middlewareBaseUrl (env : Env) (url : JsString) : JsString :=
  let middlewareUrl := trim url
  let middlewarePath := orElse env.VITE_API_MIDDLEWARE_PATH "/ez/ez".toList
  let formattedUrl := if endsWith middlewareUrl '/' then middlewareUrl.dropLast else middlewareUrl
  let formattedPath := if startsWith middlewarePath '/' then middlewarePath else '/' :: middlewarePath
  if truthy env.VITE_API_MIDDLEWARE_KEY then formattedUrl
  else formattedUrl ++ formattedPath

/-- The static branch of `getApiBaseUrl` (lines 76-88): `some u` when the
branch returns `u`, `none` when control falls through it. -/
def staticBaseUrl (env : Env) (availableUrl : Option JsString) : Option JsString :=
  match parseArray env.VITE_STATIC_API_URLS [] with
  | first :: _ :: _ =>
    match availableUrl with
    | some a => if a.isEmpty then some first else some a
    | none => some first
  | [only] => some only
  | [] => none

/-- The auto branch of `getApiBaseUrl` (lines 93-117). -/
def autoBaseUrl (env : Env) (location : Option Location) : JsString :=
  match location with
  | some currentUrl =>
    let protocol :=
      if parseBoolean (JsValue.ofEnv env.VITE_AUTO_USE_SAME_PROTOCOL) true
      then currentUrl.protocol else "https:".toList
    let apiBaseUrl := protocol ++ "//".toList ++ currentUrl.host
    if parseBoolean (JsValue.ofEnv env.VITE_AUTO_APPEND_API_PATH) true
    then apiBaseUrl ++ orElse env.VITE_AUTO_API_PATH "/api/v1".toList
    else apiBaseUrl
  | none => orElse (parseArray env.VITE_STATIC_API_URLS []).head? []

/-- The code after the middleware check of `getApiBaseUrl` (lines 72-120). -/
def afterMiddleware (env : Env) (location : Option Location)
    (availableUrl : Option JsString) : JsString :=
  let urlMode := orElse env.VITE_API_URL_MODE "static".toList
  let fromStatic :=
    if urlMode = "static".toList && truthy env.VITE_STATIC_API_URLS
    then staticBaseUrl env availableUrl else none
  match fromStatic with
  | some u => u
  | none => if urlMode = "auto".toList then autoBaseUrl env location else []

/-- Source: `getApiBaseUrl` (baseConfig.js, lines 53-121). -/
def getApiBaseUrl (env : Env) (location : Option Location)
    (availableUrl : Option JsString) : JsString :=
  if parseBoolean (JsValue.ofEnv env.VITE_API_MIDDLEWARE_ENABLED) false
      && truthy env.VITE_API_MIDDLEWARE_URL
  then middlewareBaseUrl env (env.VITE_API_MIDDLEWARE_URL.getD [])
  else afterMiddleware env location availableUrl

/-- The environment in which nothing is configured. -/
def emptyEnv : Env :=
  ⟨none, none, none, none, none, none, none, none, none⟩

/-- The middleware branch is not taken: `VITE_API_MIDDLEWARE_ENABLED` does not
parse to `true`, or `VITE_API_MIDDLEWARE_URL` is unset or empty. -/
def middlewareNotTaken (env : Env) : Prop :=
  parseBoolean (JsValue.ofEnv env.VITE_API_MIDDLEWARE_ENABLED) false = false ∨
    env.VITE_API_MIDDLEWARE_URL = none ∨ env.VITE_API_MIDDLEWARE_URL = some []

/-- The setting `VITE_API_URL_MODE` is unset, empty or `'static'`. -/
def staticMode (env : Env) : Prop :=
  env.VITE_API_URL_MODE = none ∨ env.VITE_API_URL_MODE = some [] ∨
    env.VITE_API_URL_MODE = some "static".toList

/-- The list `staticUrls` of `getApiBaseUrl` (lines 76 and 115): the candidate
origins built from `VITE_STATIC_API_URLS`. -/
def staticUrls (env : Env) : List JsString := parseArray env.VITE_STATIC_API_URLS []

instance (env : Env) : Decidable (middlewareNotTaken env) := by
  unfold middlewareNotTaken
  infer_instance

instance (env : Env) : Decidable (staticMode env) := by
  unfold staticMode
  infer_instance

/-- An environment with two static origins and nothing else. -/
def twoOriginsEnv : Env :=
  { emptyEnv with VITE_STATIC_API_URLS := some "https://a.example,https://b.example".toList }

/-- An environment with one static origin and nothing else. -/
def oneOriginEnv : Env :=
  { emptyEnv with VITE_STATIC_API_URLS := some " https://a.example ,".toList }

/-- An environment whose only setting is the origin `https://a.example/`. -/
def slashEnv : Env :=
  { emptyEnv with VITE_STATIC_API_URLS := some "https://a.example/".toList }

/-- An environment whose static list names `https://a.example` twice. -/
def repeatedEnv : Env :=
  { emptyEnv with
    VITE_STATIC_API_URLS := some "https://a.example,https://b.example,https://a.example".toList }

/-- The URL part `U` in the words of the middleware claim: the trimmed
middleware URL with one trailing `/` removed if present. -/
def specMiddlewareUrl (url : JsString) : JsString :=
  let t := trim url
  if t.getLast? = some '/' then t.take (t.length - 1) else t

/-- The path part `P` in the words of the middleware claim:
`VITE_API_MIDDLEWARE_PATH`, or `/ez/ez` when unset or empty, prefixed with `/`
unless it already starts with `/`. -/
def specMiddlewarePath (path : Option JsString) : JsString :=
  let p :=
    match path with
    | none => "/ez/ez".toList
    | some [] => "/ez/ez".toList
    | some (c :: cs) => c :: cs
  match p with
  | '/' :: _ => p
  | _ => '/' :: p

/-- The result in the words of the middleware claim: `U` when the key is
non-empty, `U + P` otherwise. -/
def specMiddlewareResult (url : JsString) (path key : Option JsString) : JsString :=
  match key with
  | some (_ :: _) => specMiddlewareUrl url
  | _ => specMiddlewareUrl url ++ specMiddlewarePath path

/-- An environment with the middleware enabled and no key, and with an auto
mode and static origins configured besides. -/
def middlewareEnv : Env :=
  { VITE_API_MIDDLEWARE_ENABLED := some "TRUE".toList
    VITE_API_MIDDLEWARE_URL := some " https://mw.example/ ".toList
    VITE_API_MIDDLEWARE_PATH := some "proxy".toList
    VITE_API_MIDDLEWARE_KEY := none
    VITE_API_URL_MODE := some "auto".toList
    VITE_STATIC_API_URLS := some "https://a.example,https://b.example".toList
    VITE_AUTO_USE_SAME_PROTOCOL := none
    VITE_AUTO_APPEND_API_PATH := none
    VITE_AUTO_API_PATH := none }

/-- The same middleware settings with every other setting removed. -/
def middlewareOnlyEnv : Env :=
  { emptyEnv with
    VITE_API_MIDDLEWARE_ENABLED := some "TRUE".toList
    VITE_API_MIDDLEWARE_URL := some " https://mw.example/ ".toList
    VITE_API_MIDDLEWARE_PATH := some "proxy".toList }

/-! ## The middleware URL and the theme colours (lines 60, 178-181, 344-404) -/

/-- The value `formattedUrl` of `getApiBaseUrl` (line 60), computed from the
trimmed middleware URL. -/
def formattedUrl (middlewareUrl : JsString) : JsString :=
  if endsWith middlewareUrl '/' then middlewareUrl.dropLast else middlewareUrl

/-- An environment with the middleware enabled, a key, and a middleware URL
that ends with two slashes. -/
def doubleSlashEnv : Env :=
  { emptyEnv with
    VITE_API_MIDDLEWARE_ENABLED := some "true".toList
    VITE_API_MIDDLEWARE_URL := some "https://mw.example//".toList
    VITE_API_MIDDLEWARE_KEY := some "secret".toList }

/-- The conversion `String(v)`. -/
def JsValue.toJsString : JsValue → JsString
  | JsValue.undefined => "undefined".toList
  | JsValue.boolean true => "true".toList
  | JsValue.boolean false => "false".toList
  | JsValue.string s => s

/-- The character class `[a-f\d]` under the flag `i` (without the flag `u`, a
character outside ASCII is never folded onto an ASCII letter). -/
def isHexDigit (c : Char) : Bool :=
  ('a' ≤ c && c ≤ 'f') || ('A' ≤ c && c ≤ 'F') || ('0' ≤ c && c ≤ '9')

/-- The value of one digit as `parseInt(_, 16)` reads it. -/
def hexDigitValue (c : Char) : Nat :=
  if '0' ≤ c ∧ c ≤ '9' then c.toNat - '0'.toNat
  else if 'a' ≤ c ∧ c ≤ 'f' then c.toNat - 'a'.toNat + 10
  else if 'A' ≤ c ∧ c ≤ 'F' then c.toNat - 'A'.toNat + 10
  else 0

/-- The call `parseInt(g, 16)` for a string `g` of hexadecimal digits, as the
capture groups of `hexToRgb` are: there is no white space, sign or `0x` prefix
to skip and the whole string is read. -/
def parseInt16 (g : JsString) : Nat :=
  g.foldl (fun n c => 16 * n + hexDigitValue c) 0

/-- The prefix `^#?` of both patterns of `hexToRgb`: what is left to match
after the optional `#`.  (When the string starts with `#`, matching without
consuming it fails at once, since `#` is not in the class that follows.) -/
def skipHash : JsString → JsString
  | '#' :: rest => rest
  | s => s

/-- The match of `shorthandRegex` (line 353): the three captured digits. -/
def shorthandExec (hex : JsString) : Option (Char × Char × Char) :=
  match skipHash hex with
  | [r, g, b] => if isHexDigit r && isHexDigit g && isHexDigit b then some (r, g, b) else none
  | _ => none

/-- The call `hex.replace(shorthandRegex, (m, r, g, b) => r + r + g + g + b + b)`
(line 354): the pattern is anchored at both ends, so a match is the whole
string and the replacement is the whole result. -/
def replaceShorthand (hex : JsString) : JsString :=
  match shorthandExec hex with
  | some (r, g, b) => [r, r, g, g, b, b]
  | none => hex

/-- The match of the six-digit pattern (line 356): the three captured groups. -/
def fullExec (hex : JsString) : Option (JsString × JsString × JsString) :=
  match skipHash hex with
  | [a, b, c, d, e, f] =>
    if isHexDigit a && isHexDigit b && isHexDigit c &&
        isHexDigit d && isHexDigit e && isHexDigit f
    then some ([a, b], [c, d], [e, f]) else none
  | _ => none

/-- Source: `hexToRgb` (baseConfig.js, lines 347-365); `none` is `undefined`. -/
def hexToRgb (hex : JsValue) : Option (List Nat) :=
  let hex1 := trim hex.toJsString
  let hex2 := replaceShorthand hex1
  match fullExec hex2 with
  | some (g1, g2, g3) => some [parseInt16 g1, parseInt16 g2, parseInt16 g3]
  | none => none

/-- The decimal digits of a number, most significant first; `fuel` bounds the
number of digits. -/
def decimalDigits : Nat → Nat → JsString
  | 0, _ => []
  | fuel + 1, n =>
    if n < 10 then [Char.ofNat (n + 48)]
    else decimalDigits fuel (n / 10) ++ [Char.ofNat (n % 10 + 48)]

/-- The conversion of a natural number to a string, as `join` performs it. -/
def numberToString (n : Nat) : JsString := decimalDigits (n + 1) n

/-- The call `rgb.join(', ')` on an array of numbers. -/
def joinRgb (rgb : List Nat) : JsString :=
  ", ".toList.intercalate (rgb.map numberToString)

/-- The errors of the embedded code: the `TypeError` of `rgb.join` when `rgb`
is `undefined`. -/
inductive JsError where
  | typeError : JsError
  deriving DecidableEq, Repr

deriving instance DecidableEq for Except

/-- The record `calculateThemeColors` returns. -/
structure ThemeColors where
  primaryColor : JsString
  primaryColorRgb : JsString
  primaryColorLight : JsString
  primaryColorDark : JsString
  primaryColorHover : JsString
  primaryColorActive : JsString
  primaryColorFocus : JsString
  deriving DecidableEq, Repr

/-- Source: `calculateThemeColors` (baseConfig.js, lines 370-381). -/
def calculateThemeColors (primaryColor : JsString) : Except JsError ThemeColors :=
  match hexToRgb (JsValue.string primaryColor) with
  | none => Except.error JsError.typeError
  | some rgb =>
    Except.ok
      { primaryColor := primaryColor
        primaryColorRgb := joinRgb rgb
        primaryColorLight := "rgba(".toList ++ joinRgb rgb ++ ", 0.1)".toList
        primaryColorDark := primaryColor
        primaryColorHover := "rgba(".toList ++ joinRgb rgb ++ ", 0.9)".toList
        primaryColorActive := "rgba(".toList ++ joinRgb rgb ++ ", 0.8)".toList
        primaryColorFocus := "rgba(".toList ++ joinRgb rgb ++ ", 0.25)".toList }

/-- One of the two palettes of `THEME_CONFIG`: the spread colour record and
the six literal fields. -/
structure ThemePalette where
  colors : ThemeColors
  backgroundColor : JsString
  cardBackground : JsString
  textColor : JsString
  secondaryTextColor : JsString
  borderColor : JsString
  shadowColor : JsString
  deriving DecidableEq, Repr

/-- The object `THEME_CONFIG`. -/
structure ThemeConfig where
  defaultTheme : JsString
  light : ThemePalette
  dark : ThemePalette
  deriving DecidableEq, Repr

/-- Source: `THEME_CONFIG` (baseConfig.js, lines 384-404), with the two fields
of `DEFAULT_CONFIG` it reads (lines 180-181) computed from the environment. -/
def THEME_CONFIG (VITE_DEFAULT_THEME VITE_PRIMARY_COLOR : Option JsString) :
    Except JsError ThemeConfig :=
  let defaultTheme := orElse VITE_DEFAULT_THEME "light".toList
  let primaryColor := orElse VITE_PRIMARY_COLOR "#355cc2".toList
  match calculateThemeColors primaryColor with
  | Except.error e => Except.error e
  | Except.ok lightColors =>
    match calculateThemeColors primaryColor with
    | Except.error e => Except.error e
    | Except.ok darkColors =>
      Except.ok
        { defaultTheme := defaultTheme
          light :=
            { colors := lightColors
              backgroundColor := "#f5f7fa".toList
              cardBackground := "#ffffff".toList
              textColor := "#333333".toList
              secondaryTextColor := "#666666".toList
              borderColor := "#e8e8e8".toList
              shadowColor := "rgba(0, 0, 0, 0.1)".toList }
          dark :=
            { colors := darkColors
              backgroundColor := "#171A1D".toList
              cardBackground := "rgba(30, 30, 30, 0.8)".toList
              textColor := "rgba(255, 255, 255, 0.9)".toList
              secondaryTextColor := "rgba(255, 255, 255, 0.6)".toList
              borderColor := "rgba(255, 255, 255, 0.1)".toList
              shadowColor := "rgba(0, 0, 0, 0.3)".toList } }

/-- The characters that denote the digit of value `v` in the words of the
colour claims: the entry `v` of `0123456789abcdef` and of `0123456789ABCDEF`. -/
def IsDigitOf (c : Char) (v : Nat) : Prop :=
  "0123456789abcdef".toList[v]? = some c ∨ "0123456789ABCDEF".toList[v]? = some c

instance (c : Char) (v : Nat) : Decidable (IsDigitOf c v) := by
  unfold IsDigitOf
  infer_instance

/-- Exactly three or exactly six hexadecimal digits, in the words of the
colour claims. -/
def isHexDigits (digits : JsString) : Bool :=
  (digits.length == 3 || digits.length == 6) &&
    digits.all (fun c => "0123456789abcdefABCDEF".toList.contains c)

/-- A hex colour in the words of the colour claims: an optional `#` followed by
exactly three or exactly six hexadecimal digits. -/
def isHexColour (t : JsString) : Bool :=
  isHexDigits t || (t.head? == some '#' && isHexDigits t.tail)

/-! ## Auxiliary facts -/

section Aux

theorem truthy_eq_false_iff (v : Option JsString) :
    truthy v = false ↔ v = none ∨ v = some [] := by
  cases v with
  | none => simp [truthy]
  | some s => cases s <;> simp [truthy]

/-- Every character of a piece produced by `split` is a character of the input. -/
theorem mem_of_mem_split (sep : Char) :
    ∀ (s : JsString) (p : JsString), p ∈ split sep s → ∀ c ∈ p, c ∈ s
  | [], p, hp, c, hc => by
    simp [split] at hp
    subst hp
    exact hc
  | x :: xs, p, hp, c, hc => by
    unfold split at hp
    by_cases hx : x = sep
    · simp only [hx, if_true, List.mem_cons] at hp
      rcases hp with rfl | hp
      · cases hc
      · exact List.mem_cons_of_mem _ (mem_of_mem_split sep xs p hp c hc)
    · simp only [hx, if_false] at hp
      cases hsplit : split sep xs with
      | nil =>
        rw [hsplit] at hp
        simp only [List.mem_singleton] at hp
        subst hp
        rcases List.mem_singleton.1 hc with rfl
        exact List.mem_cons_self _ _
      | cons q qs =>
        rw [hsplit] at hp
        simp only [List.mem_cons] at hp
        rcases hp with rfl | hp
        · rcases List.mem_cons.1 hc with rfl | hc
          · exact List.mem_cons_self _ _
          · exact List.mem_cons_of_mem _
              (mem_of_mem_split sep xs q (by rw [hsplit]; exact List.mem_cons_self _ _) c hc)
        · exact List.mem_cons_of_mem _
            (mem_of_mem_split sep xs p (by rw [hsplit]; exact List.mem_cons_of_mem _ hp) c hc)

theorem trim_eq_nil_iff (s : JsString) : trim s = [] ↔ ∀ c ∈ s, isWhiteSpace c = true := by
  unfold trim
  rw [List.reverse_eq_nil_iff, List.dropWhile_eq_nil_iff]
  constructor
  · intro h c hc
    by_cases hw : isWhiteSpace c = true
    · exact hw
    · have hsplit := List.takeWhile_append_dropWhile isWhiteSpace s
      rw [← hsplit] at hc
      rcases List.mem_append.1 hc with h1 | h2
      · exact (List.mem_takeWhile_imp h1)
      · exact h c (List.mem_reverse.2 h2)
  · intro h c hc
    exact h c ((List.dropWhile_subset _) (List.mem_reverse.1 hc))

/-- The pieces of a string, trimmed, without the empty ones. -/
theorem parseArray_of_not_blank (v : JsString) (d : List JsString) (h : trim v ≠ []) :
    parseArray (some v) d =
      ((split ',' v).map trim).filter (fun item => !item.isEmpty) := by
  have hv : v ≠ [] := by
    rintro rfl
    exact h (by decide)
  simp [parseArray, List.isEmpty_iff, h, hv]

theorem filter_pieces_of_blank (v : JsString) (h : trim v = []) :
    ((split ',' v).map trim).filter (fun item => !item.isEmpty) = [] := by
  rw [List.filter_eq_nil_iff]
  intro e he
  rcases List.mem_map.1 he with ⟨p, hp, rfl⟩
  have hall : ∀ c ∈ p, isWhiteSpace c = true := fun c hc =>
    (trim_eq_nil_iff v).1 h c (mem_of_mem_split ',' v p hp c hc)
  simp [(trim_eq_nil_iff p).2 hall]

/-- With the default `[]`, `parseArray` is the same filter on every string,
blank ones included. -/
theorem parseArray_eq_filter (v : JsString) :
    parseArray (some v) [] =
      ((split ',' v).map trim).filter (fun item => !item.isEmpty) := by
  by_cases h : trim v = []
  · rw [filter_pieces_of_blank v h]
    simp [parseArray, List.isEmpty_iff, h]
  · exact parseArray_of_not_blank v [] h

theorem mem_parseArray {v e : JsString} (h : e ∈ parseArray (some v) []) :
    e ≠ [] ∧ ∃ p ∈ split ',' v, e = trim p := by
  rw [parseArray_eq_filter, List.mem_filter, List.mem_map] at h
  obtain ⟨⟨p, hp, rfl⟩, hne⟩ := h
  refine ⟨?_, p, hp, rfl⟩
  intro h0
  simp [h0] at hne

theorem trim_head_not_whiteSpace (s : JsString) (c : Char) (h : (trim s).head? = some c) :
    isWhiteSpace c = false := by
  have hpre : trim s <+: s.dropWhile isWhiteSpace := by
    unfold trim
    exact List.rdropWhile_prefix _ _
  obtain ⟨t, ht⟩ := hpre
  cases htr : trim s with
  | nil => rw [htr] at h; cases h
  | cons x xs =>
    rw [htr] at h ht
    simp only [List.head?_cons, Option.some.injEq] at h
    subst h
    have hd := List.head?_dropWhile_not isWhiteSpace s
    rw [← ht] at hd
    simpa using hd

theorem trim_last_not_whiteSpace (s : JsString) (c : Char) (h : (trim s).getLast? = some c) :
    isWhiteSpace c = false := by
  unfold trim at h
  rw [List.getLast?_reverse] at h
  have hd := List.head?_dropWhile_not isWhiteSpace (s.dropWhile isWhiteSpace).reverse
  rw [h] at hd
  simpa using hd

theorem staticUrls_eq_nil_of_not_truthy (env : Env) (h : truthy env.VITE_STATIC_API_URLS = false) :
    staticUrls env = [] := by
  unfold staticUrls
  rcases (truthy_eq_false_iff _).1 h with h0 | h0 <;> rw [h0] <;> simp [parseArray]

/-- Outside the middleware branch and in static mode, `getApiBaseUrl` is the
static branch, with `''` when control falls through it. -/
theorem getApiBaseUrl_static (env : Env) (location : Option Location)
    (availableUrl : Option JsString) (hmw : middlewareNotTaken env) (hmode : staticMode env) :
    getApiBaseUrl env location availableUrl = (staticBaseUrl env availableUrl).getD [] := by
  have hcond : (parseBoolean (JsValue.ofEnv env.VITE_API_MIDDLEWARE_ENABLED) false
      && truthy env.VITE_API_MIDDLEWARE_URL) = false := by
    rcases hmw with h | h | h
    · simp [h]
    · simp [h, truthy]
    · simp [h, truthy]
  have hurl : orElse env.VITE_API_URL_MODE "static".toList = "static".toList := by
    rcases hmode with h | h | h <;> rw [h] <;> decide
  unfold getApiBaseUrl
  rw [hcond]
  simp only [Bool.false_eq_true, if_false, afterMiddleware, hurl]
  by_cases ht : truthy env.VITE_STATIC_API_URLS = true
  · simp only [ht, decide_True, Bool.and_self, if_true]
    cases staticBaseUrl env availableUrl with
    | none => simp
    | some u => simp
  · have ht0 : truthy env.VITE_STATIC_API_URLS = false := by simpa using ht
    have hc := staticUrls_eq_nil_of_not_truthy env ht0
    unfold staticUrls at hc
    have hne : ("static".toList = "auto".toList) = False := by decide
    simp [ht0, staticBaseUrl, hc, hne]

theorem mem_staticUrls_ne_nil {env : Env} {e : JsString} (h : e ∈ staticUrls env) : e ≠ [] := by
  unfold staticUrls at h
  cases hv : env.VITE_STATIC_API_URLS with
  | none => rw [hv] at h; simp [parseArray] at h
  | some v => rw [hv] at h; exact (mem_parseArray h).1

theorem staticBaseUrl_of_nil {env : Env} (a : Option JsString) (h : staticUrls env = []) :
    staticBaseUrl env a = none := by
  unfold staticUrls at h
  simp [staticBaseUrl, h]

theorem staticBaseUrl_of_single {env : Env} (a : Option JsString) {u : JsString}
    (h : staticUrls env = [u]) : staticBaseUrl env a = some u := by
  unfold staticUrls at h
  simp [staticBaseUrl, h]

theorem staticBaseUrl_of_many {env : Env} (a : Option JsString) {u w : JsString}
    {r : List JsString} (h : staticUrls env = u :: w :: r) :
    staticBaseUrl env a = some (if truthy a then a.getD [] else u) := by
  unfold staticUrls at h
  rcases a with _ | a
  · simp [staticBaseUrl, h, truthy]
  · cases a <;> simp [staticBaseUrl, h, truthy]

theorem specMiddlewareUrl_eq (url : JsString) :
    specMiddlewareUrl url =
      if endsWith (trim url) '/' then (trim url).dropLast else trim url := by
  unfold specMiddlewareUrl endsWith
  simp only [List.dropLast_eq_take]
  by_cases h : (trim url).getLast? = some '/' <;> simp [h]

theorem specMiddlewarePath_eq (path : Option JsString) :
    specMiddlewarePath path =
      if startsWith (orElse path "/ez/ez".toList) '/' then orElse path "/ez/ez".toList
      else '/' :: orElse path "/ez/ez".toList := by
  have hp : (match path with
      | none => "/ez/ez".toList
      | some [] => "/ez/ez".toList
      | some (c :: cs) => c :: cs) = orElse path "/ez/ez".toList := by
    rcases path with _ | _ | ⟨c, cs⟩ <;> simp [orElse]
  unfold specMiddlewarePath
  simp only [hp]
  generalize orElse path "/ez/ez".toList = q
  rcases q with _ | ⟨c, cs⟩
  · simp [startsWith]
  · by_cases hc : c = '/'
    · subst hc
      simp [startsWith]
    · have hc2 : (some c == some '/') = false := by simpa using hc
      simp only [startsWith, List.head?_cons, hc2, Bool.false_eq_true, if_false]
      split
      · rename_i heq
        simp only [List.cons.injEq] at heq
        exact absurd heq.1 hc
      · rfl

theorem middlewareBaseUrl_eq_spec (env : Env) (url : JsString) :
    middlewareBaseUrl env url =
      specMiddlewareResult url env.VITE_API_MIDDLEWARE_PATH env.VITE_API_MIDDLEWARE_KEY := by
  unfold middlewareBaseUrl specMiddlewareResult
  simp only [← specMiddlewareUrl_eq, ← specMiddlewarePath_eq]
  rcases env.VITE_API_MIDDLEWARE_KEY with _ | _ | ⟨c, cs⟩ <;> simp [truthy]

end Aux

/-! ## The claims about `getApiBaseUrl` in static mode -/

/-- C1. Outside the middleware branch, with `VITE_API_URL_MODE` unset, empty or
`'static'` and at least two entries in `parseArray(VITE_STATIC_API_URLS)`, when
`getAvailableApiUrl()` gives no answer (`null`/`undefined` or `''`),
`getApiBaseUrl()` returns the first entry of the list. -/
theorem getApiBaseUrl_fallback_first (env : Env) (location : Option Location)
    (availableUrl : Option JsString)
    (hmw : middlewareNotTaken env) (hmode : staticMode env)
    (hlen : 2 ≤ (parseArray env.VITE_STATIC_API_URLS []).length)
    (hna : availableUrl = none ∨ availableUrl = some []) :
    some (getApiBaseUrl env location availableUrl) =
      (parseArray env.VITE_STATIC_API_URLS []).head? := by
  rw [getApiBaseUrl_static env location availableUrl hmw hmode]
  have ht : truthy availableUrl = false := (truthy_eq_false_iff _).2 hna
  cases hs : parseArray env.VITE_STATIC_API_URLS [] with
  | nil => rw [hs] at hlen; simp at hlen
  | cons u t =>
    cases t with
    | nil => rw [hs] at hlen; simp at hlen
    | cons w r =>
      rw [staticBaseUrl_of_many availableUrl (show staticUrls env = u :: w :: r from hs)]
      simp [ht]

/-- Two origins and the empty answer: the first origin is returned. -/
theorem getApiBaseUrl_fallback_first_witness :
    middlewareNotTaken twoOriginsEnv ∧ staticMode twoOriginsEnv ∧
      2 ≤ (parseArray twoOriginsEnv.VITE_STATIC_API_URLS []).length ∧
      getApiBaseUrl twoOriginsEnv none (some []) = "https://a.example".toList ∧
      some (getApiBaseUrl twoOriginsEnv none (some [])) =
        (parseArray twoOriginsEnv.VITE_STATIC_API_URLS []).head? :=
  ⟨by decide, by decide, by decide, by decide,
    getApiBaseUrl_fallback_first twoOriginsEnv none (some [])
      (by decide) (by decide) (by decide) (Or.inr rfl)⟩

/-- C2, as stated, fails: with the two origins `https://a.example` and
`https://b.example` configured and the checker answering `https://c.example`,
`getApiBaseUrl()` returns the checker's answer, which is not in the list. -/
theorem getApiBaseUrl_member_counterexample :
    middlewareNotTaken twoOriginsEnv ∧ staticMode twoOriginsEnv ∧
      parseArray twoOriginsEnv.VITE_STATIC_API_URLS [] ≠ [] ∧
      getApiBaseUrl twoOriginsEnv none (some "https://c.example".toList) ∉
        parseArray twoOriginsEnv.VITE_STATIC_API_URLS [] := by
  decide

/-- C2, amended. Outside the middleware branch, in static mode and with a
non-empty `parseArray(VITE_STATIC_API_URLS)`, the value `getApiBaseUrl()`
returns is an element of that list whenever the list has exactly one entry or
the answer of `getAvailableApiUrl()` is nothing, `''` or an element of the
list; and when the list has at least two entries, a non-empty answer of
`getAvailableApiUrl()` is returned as it is, whether or not it is an element
of the list. -/
theorem getApiBaseUrl_member (env : Env) (location : Option Location)
    (availableUrl : Option JsString)
    (hmw : middlewareNotTaken env) (hmode : staticMode env)
    (hne : parseArray env.VITE_STATIC_API_URLS [] ≠ []) :
    (((parseArray env.VITE_STATIC_API_URLS []).length = 1 ∨
        availableUrl = none ∨ availableUrl = some [] ∨
        ∃ a, availableUrl = some a ∧ a ∈ parseArray env.VITE_STATIC_API_URLS []) →
      getApiBaseUrl env location availableUrl ∈ parseArray env.VITE_STATIC_API_URLS []) ∧
    (∀ a : JsString, 2 ≤ (parseArray env.VITE_STATIC_API_URLS []).length →
      availableUrl = some a → a ≠ [] →
      getApiBaseUrl env location availableUrl = a) := by
  rw [getApiBaseUrl_static env location availableUrl hmw hmode]
  cases hs : parseArray env.VITE_STATIC_API_URLS [] with
  | nil => exact absurd hs hne
  | cons u t =>
    cases t with
    | nil =>
      rw [staticBaseUrl_of_single availableUrl (show staticUrls env = [u] from hs)]
      refine ⟨fun _ => by simp, ?_⟩
      intro a hlen
      simp at hlen
    | cons w r =>
      rw [staticBaseUrl_of_many availableUrl (show staticUrls env = u :: w :: r from hs)]
      constructor
      · intro ha
        rcases ha with h | h | h | ⟨a, h, hmem⟩
        · simp at h
        · simp [h, truthy]
        · simp [h, truthy]
        · subst h
          by_cases ht : truthy (some a) = true
          · simpa [ht] using hmem
          · simp [ht]
      · intro a _ hsome hnonempty
        subst hsome
        have ht : truthy (some a) = true := by
          cases a with
          | nil => exact absurd rfl hnonempty
          | cons c cs => rfl
        simp [ht]

/-- Two origins: the second one as answer is returned and is in the list; the
answer `https://c.example` is returned as well, although it is not in the
list. -/
theorem getApiBaseUrl_member_witness :
    middlewareNotTaken twoOriginsEnv ∧ staticMode twoOriginsEnv ∧
      parseArray twoOriginsEnv.VITE_STATIC_API_URLS [] =
        ["https://a.example".toList, "https://b.example".toList] ∧
      getApiBaseUrl twoOriginsEnv none (some "https://b.example".toList) ∈
        parseArray twoOriginsEnv.VITE_STATIC_API_URLS [] ∧
      getApiBaseUrl twoOriginsEnv none (some "https://b.example".toList) =
        "https://b.example".toList ∧
      getApiBaseUrl twoOriginsEnv none (some "https://c.example".toList) =
        "https://c.example".toList :=
  ⟨by decide, by decide, by decide,
    (getApiBaseUrl_member twoOriginsEnv none (some "https://b.example".toList)
      (by decide) (by decide) (by decide)).1
      (Or.inr (Or.inr (Or.inr ⟨"https://b.example".toList, rfl, by decide⟩))),
    (getApiBaseUrl_member twoOriginsEnv none (some "https://b.example".toList)
      (by decide) (by decide) (by decide)).2
      "https://b.example".toList (by decide) rfl (by decide),
    (getApiBaseUrl_member twoOriginsEnv none (some "https://c.example".toList)
      (by decide) (by decide) (by decide)).2
      "https://c.example".toList (by decide) rfl (by decide)⟩

/-- C3. Outside the middleware branch, in static mode and with a non-empty
`parseArray(VITE_STATIC_API_URLS)`, `getApiBaseUrl()` returns a non-empty
string, whatever string or nothing `getAvailableApiUrl()` answers. -/
theorem getApiBaseUrl_nonempty (env : Env) (location : Option Location)
    (availableUrl : Option JsString)
    (hmw : middlewareNotTaken env) (hmode : staticMode env)
    (hne : parseArray env.VITE_STATIC_API_URLS [] ≠ []) :
    getApiBaseUrl env location availableUrl ≠ [] := by
  rw [getApiBaseUrl_static env location availableUrl hmw hmode]
  have hfirst : ∀ u t, staticUrls env = u :: t → u ≠ [] := fun u t h =>
    mem_staticUrls_ne_nil (by rw [h]; exact List.mem_cons_self _ _)
  cases hs : parseArray env.VITE_STATIC_API_URLS [] with
  | nil => exact absurd hs hne
  | cons u t =>
    have hu : u ≠ [] := hfirst u t hs
    cases t with
    | nil =>
      rw [staticBaseUrl_of_single availableUrl (show staticUrls env = [u] from hs)]
      simpa using hu
    | cons w r =>
      rw [staticBaseUrl_of_many availableUrl (show staticUrls env = u :: w :: r from hs)]
      rcases availableUrl with _ | a
      · simpa [truthy] using hu
      · cases a with
        | nil => simpa [truthy] using hu
        | cons c cs => simp [truthy]

/-- One origin followed by an empty piece: the result is not empty. -/
theorem getApiBaseUrl_nonempty_witness :
    middlewareNotTaken oneOriginEnv ∧ staticMode oneOriginEnv ∧
      parseArray oneOriginEnv.VITE_STATIC_API_URLS [] = ["https://a.example".toList] ∧
      getApiBaseUrl oneOriginEnv none none ≠ [] :=
  ⟨by decide, by decide, by decide,
    getApiBaseUrl_nonempty oneOriginEnv none none (by decide) (by decide) (by decide)⟩

/-- C4, as stated, fails: with nothing configured `getApiBaseUrl()` returns
the empty string. -/
theorem getApiBaseUrl_empty_catalog_counterexample :
    middlewareNotTaken emptyEnv ∧ staticMode emptyEnv ∧
      emptyEnv.VITE_STATIC_API_URLS = none ∧
      parseArray emptyEnv.VITE_STATIC_API_URLS [] = [] ∧
      getApiBaseUrl emptyEnv none none = [] := by
  decide

/-- C4, amended. Outside the middleware branch and in static mode, when no
candidate origin is configured (`parseArray(VITE_STATIC_API_URLS)` is empty:
the variable is unset, blank or holds only separators), `getApiBaseUrl()`
returns the empty string. -/
theorem getApiBaseUrl_empty_catalog (env : Env) (location : Option Location)
    (availableUrl : Option JsString)
    (hmw : middlewareNotTaken env) (hmode : staticMode env)
    (hnil : parseArray env.VITE_STATIC_API_URLS [] = []) :
    getApiBaseUrl env location availableUrl = [] := by
  rw [getApiBaseUrl_static env location availableUrl hmw hmode,
    staticBaseUrl_of_nil availableUrl (show staticUrls env = [] from hnil)]
  rfl

/-- The static list `,` has no entry: the result is the empty string. -/
theorem getApiBaseUrl_empty_catalog_witness :
    parseArray (some ",".toList) [] = [] ∧
      getApiBaseUrl { emptyEnv with VITE_STATIC_API_URLS := some ",".toList }
        (some ⟨"https:".toList, "shop.example".toList⟩) (some "https://c.example".toList) = [] :=
  ⟨by decide,
    getApiBaseUrl_empty_catalog { emptyEnv with VITE_STATIC_API_URLS := some ",".toList }
      (some ⟨"https:".toList, "shop.example".toList⟩) (some "https://c.example".toList)
      (by decide) (by decide) (by decide)⟩

/-- C9. Outside the middleware branch and in static mode, when
`parseArray(VITE_STATIC_API_URLS)` has exactly one entry `u`, `getApiBaseUrl()`
returns `u` for every answer of `getAvailableApiUrl()` (and every page
location): the result does not depend on the availability checker. -/
theorem getApiBaseUrl_single_origin (env : Env) (location : Option Location)
    (availableUrl : Option JsString) (u : JsString)
    (hmw : middlewareNotTaken env) (hmode : staticMode env)
    (hone : parseArray env.VITE_STATIC_API_URLS [] = [u]) :
    getApiBaseUrl env location availableUrl = u := by
  rw [getApiBaseUrl_static env location availableUrl hmw hmode,
    staticBaseUrl_of_single availableUrl (show staticUrls env = [u] from hone)]
  rfl

/-- One origin: the answer `https://c.example` of the checker is ignored. -/
theorem getApiBaseUrl_single_origin_witness :
    middlewareNotTaken oneOriginEnv ∧ staticMode oneOriginEnv ∧
      parseArray oneOriginEnv.VITE_STATIC_API_URLS [] = ["https://a.example".toList] ∧
      getApiBaseUrl oneOriginEnv none (some "https://c.example".toList) =
        "https://a.example".toList :=
  ⟨by decide, by decide, by decide,
    getApiBaseUrl_single_origin oneOriginEnv none (some "https://c.example".toList)
      "https://a.example".toList (by decide) (by decide) (by decide)⟩

/-! ## The middleware branch -/

/-- C10. When `VITE_API_MIDDLEWARE_ENABLED` parses to `true` and
`VITE_API_MIDDLEWARE_URL` is non-empty, `getApiBaseUrl()` returns `U` when
`VITE_API_MIDDLEWARE_KEY` is non-empty and `U + P` otherwise (`U`: the trimmed
middleware URL without one trailing `/`; `P`: the middleware path, `/ez/ez` by
default, with a leading `/`), and any environment with the same four middleware
settings gives the same result for every URL mode, static list, page location
and answer of `getAvailableApiUrl()`. -/
theorem getApiBaseUrl_middleware (env other : Env) (location location2 : Option Location)
    (availableUrl availableUrl2 : Option JsString) (url : JsString)
    (hen : parseBoolean (JsValue.ofEnv env.VITE_API_MIDDLEWARE_ENABLED) false = true)
    (hurl : env.VITE_API_MIDDLEWARE_URL = some url) (hne : url ≠ [])
    (h1 : other.VITE_API_MIDDLEWARE_ENABLED = env.VITE_API_MIDDLEWARE_ENABLED)
    (h2 : other.VITE_API_MIDDLEWARE_URL = env.VITE_API_MIDDLEWARE_URL)
    (h3 : other.VITE_API_MIDDLEWARE_PATH = env.VITE_API_MIDDLEWARE_PATH)
    (h4 : other.VITE_API_MIDDLEWARE_KEY = env.VITE_API_MIDDLEWARE_KEY) :
    getApiBaseUrl env location availableUrl =
        specMiddlewareResult url env.VITE_API_MIDDLEWARE_PATH env.VITE_API_MIDDLEWARE_KEY ∧
      getApiBaseUrl other location2 availableUrl2 =
        getApiBaseUrl env location availableUrl := by
  have ht : truthy (some url) = true := by
    cases url with
    | nil => exact absurd rfl hne
    | cons c cs => rfl
  have key : ∀ (e : Env) (l : Option Location) (a : Option JsString),
      e.VITE_API_MIDDLEWARE_ENABLED = env.VITE_API_MIDDLEWARE_ENABLED →
      e.VITE_API_MIDDLEWARE_URL = env.VITE_API_MIDDLEWARE_URL →
      getApiBaseUrl e l a =
        specMiddlewareResult url e.VITE_API_MIDDLEWARE_PATH e.VITE_API_MIDDLEWARE_KEY := by
    intro e l a he hu
    unfold getApiBaseUrl
    rw [he, hu, hen, hurl, ht]
    simp only [Bool.and_self, if_true, Option.getD_some]
    exact middlewareBaseUrl_eq_spec e url
  refine ⟨key env location availableUrl rfl rfl, ?_⟩
  rw [key env location availableUrl rfl rfl, key other location2 availableUrl2 h1 h2, h3, h4]

/-- The middleware settings decide the result, with or without other settings. -/
theorem getApiBaseUrl_middleware_witness :
    parseBoolean (JsValue.ofEnv middlewareEnv.VITE_API_MIDDLEWARE_ENABLED) false = true ∧
      specMiddlewareResult " https://mw.example/ ".toList
        middlewareEnv.VITE_API_MIDDLEWARE_PATH middlewareEnv.VITE_API_MIDDLEWARE_KEY =
        "https://mw.example/proxy".toList ∧
      (getApiBaseUrl middlewareEnv (some ⟨"http:".toList, "shop.example".toList⟩)
          (some "https://b.example".toList) =
          specMiddlewareResult " https://mw.example/ ".toList
            middlewareEnv.VITE_API_MIDDLEWARE_PATH middlewareEnv.VITE_API_MIDDLEWARE_KEY ∧
        getApiBaseUrl middlewareOnlyEnv none none =
          getApiBaseUrl middlewareEnv (some ⟨"http:".toList, "shop.example".toList⟩)
            (some "https://b.example".toList)) :=
  ⟨by decide, by decide,
    getApiBaseUrl_middleware middlewareEnv middlewareOnlyEnv
      (some ⟨"http:".toList, "shop.example".toList⟩) none
      (some "https://b.example".toList) none " https://mw.example/ ".toList
      (by decide) rfl (by decide) rfl rfl rfl rfl⟩

/-! ## The claims about `parseArray` -/

/-- C5. For every string `value`, every entry of `parseArray(value)` is
non-empty, does not start with a white-space character and does not end with
one. -/
theorem parseArray_entries_trimmed (value e : JsString)
    (h : e ∈ parseArray (some value) []) :
    e ≠ [] ∧ (∀ c, e.head? = some c → isWhiteSpace c = false) ∧
      (∀ c, e.getLast? = some c → isWhiteSpace c = false) := by
  obtain ⟨hne, p, -, rfl⟩ := mem_parseArray h
  exact ⟨hne, trim_head_not_whiteSpace p, trim_last_not_whiteSpace p⟩

/-- The entry `a b` of a list written with blanks, a tab and a line feed. -/
theorem parseArray_entries_trimmed_witness :
    parseArray (some " a b ,\t, c\n".toList) [] = ["a b".toList, "c".toList] ∧
      ("a b".toList ≠ [] ∧ (∀ c, "a b".toList.head? = some c → isWhiteSpace c = false) ∧
        (∀ c, "a b".toList.getLast? = some c → isWhiteSpace c = false)) :=
  ⟨by decide,
    parseArray_entries_trimmed " a b ,\t, c\n".toList "a b".toList (by decide)⟩

/-- C6, as stated, fails: the configured string `https://a.example/` yields the
single entry `https://a.example/`, which ends with `/`, and `getApiBaseUrl()`
returns it unchanged. -/
theorem parseArray_trailing_slash_counterexample :
    parseArray slashEnv.VITE_STATIC_API_URLS [] = ["https://a.example/".toList] ∧
      endsWith "https://a.example/".toList '/' = true ∧
      middlewareNotTaken slashEnv ∧ staticMode slashEnv ∧
      getApiBaseUrl slashEnv none none = "https://a.example/".toList := by
  decide

/-- C6, amended. Trailing slashes are kept: for every configured string, the
candidate list `parseArray(VITE_STATIC_API_URLS)` has an entry ending with `/`
exactly when some comma-separated piece of the string, once trimmed, ends
with `/`. -/
theorem parseArray_trailing_slash_iff (v : JsString) :
    (∃ e ∈ parseArray (some v) [], endsWith e '/' = true) ↔
      (∃ p ∈ split ',' v, endsWith (trim p) '/' = true) := by
  constructor
  · rintro ⟨e, he, hs⟩
    obtain ⟨-, p, hp, rfl⟩ := mem_parseArray he
    exact ⟨p, hp, hs⟩
  · rintro ⟨p, hp, hs⟩
    refine ⟨trim p, ?_, hs⟩
    rw [parseArray_eq_filter, List.mem_filter]
    refine ⟨List.mem_map_of_mem _ hp, ?_⟩
    cases ht : trim p with
    | nil => rw [ht] at hs; simp [endsWith] at hs
    | cons c cs => rfl

/-- C7, as stated, fails: a string that names `https://a.example` twice yields
a candidate list with two equal entries. -/
theorem parseArray_dedup_counterexample :
    parseArray repeatedEnv.VITE_STATIC_API_URLS [] =
        ["https://a.example".toList, "https://b.example".toList, "https://a.example".toList] ∧
      ¬ (parseArray repeatedEnv.VITE_STATIC_API_URLS []).Nodup := by
  decide

/-- C7, amended. The candidate list is not deduplicated: for every configured
string, `parseArray` keeps the trimmed comma-separated pieces in their input
order, and every non-empty trimmed piece occurs in the list as many times as
it occurs among the trimmed pieces. -/
theorem parseArray_keeps_duplicates (v : JsString) :
    (parseArray (some v) []).Sublist ((split ',' v).map trim) ∧
      ∀ e : JsString, e ≠ [] →
        (parseArray (some v) []).count e = ((split ',' v).map trim).count e := by
  rw [parseArray_eq_filter]
  refine ⟨List.filter_sublist _, ?_⟩
  intro e he
  apply List.count_filter
  cases e with
  | nil => exact absurd rfl he
  | cons c cs => rfl

/-- The piece `a` occurs twice in the input and twice in the list. -/
theorem parseArray_keeps_duplicates_witness :
    (parseArray (some "a, b ,a".toList) []).count "a".toList = 2 ∧
      ((split ',' "a, b ,a".toList).map trim).count "a".toList = 2 ∧
      (parseArray (some "a, b ,a".toList) []).count "a".toList =
        ((split ',' "a, b ,a".toList).map trim).count "a".toList :=
  ⟨by decide, by decide,
    (parseArray_keeps_duplicates "a, b ,a".toList).2 "a".toList (by decide)⟩

/-- C8. For every non-blank string `value`, `parseArray(value)` is an
order-preserving sublist of the trimmed comma-separated pieces of `value`, and
its first entry, when there is one, is the first piece that is not blank,
trimmed. -/
theorem parseArray_preserves_order (value : JsString) (defaultValue : List JsString)
    (h : trim value ≠ []) :
    (parseArray (some value) defaultValue).Sublist ((split ',' value).map trim) ∧
      (parseArray (some value) defaultValue).head? =
        ((split ',' value).find? (fun p => !(trim p).isEmpty)).map trim := by
  rw [parseArray_of_not_blank value defaultValue h]
  refine ⟨List.filter_sublist _, ?_⟩
  rw [List.filter_head?, List.find?_map]
  rfl

/-- A list whose first piece is blank: the first entry is the second piece. -/
theorem parseArray_preserves_order_witness :
    trim " , b ,a,b".toList ≠ [] ∧
      parseArray (some " , b ,a,b".toList) [] = ["b".toList, "a".toList, "b".toList] ∧
      ((parseArray (some " , b ,a,b".toList) []).Sublist
          ((split ',' " , b ,a,b".toList).map trim) ∧
        (parseArray (some " , b ,a,b".toList) []).head? =
          ((split ',' " , b ,a,b".toList).find? (fun p => !(trim p).isEmpty)).map trim) :=
  ⟨by decide, by decide, parseArray_preserves_order " , b ,a,b".toList [] (by decide)⟩

/-! ## Auxiliary facts about the middleware URL and the colours -/

section ColourAux

theorem middlewareBaseUrl_eq_formattedUrl (env : Env) (url : JsString) :
    middlewareBaseUrl env url =
      if truthy env.VITE_API_MIDDLEWARE_KEY then formattedUrl (trim url)
      else formattedUrl (trim url) ++
        (if startsWith (orElse env.VITE_API_MIDDLEWARE_PATH "/ez/ez".toList) '/'
          then orElse env.VITE_API_MIDDLEWARE_PATH "/ez/ez".toList
          else '/' :: orElse env.VITE_API_MIDDLEWARE_PATH "/ez/ez".toList) :=
  rfl

/-- The value `formattedUrl` still ends with `/` exactly when the trimmed
middleware URL ends with two of them. -/
theorem formattedUrl_endsWith_slash_iff (u : JsString) :
    endsWith (formattedUrl u) '/' = true ↔ ∃ w, u = w ++ ['/', '/'] := by
  rcases List.eq_nil_or_concat u with rfl | ⟨w, c, rfl⟩
  · simp [formattedUrl, endsWith]
  · rw [List.concat_eq_append]
    by_cases hc : c = '/'
    · subst hc
      have h1 : formattedUrl (w ++ ['/']) = w := by simp [formattedUrl, endsWith]
      rw [h1]
      constructor
      · intro h
        rcases List.eq_nil_or_concat w with rfl | ⟨w2, d, rfl⟩
        · simp [endsWith] at h
        · rw [List.concat_eq_append] at h ⊢
          have hd : d = '/' := by simpa [endsWith] using h
          subst hd
          exact ⟨w2, by simp⟩
      · rintro ⟨w2, h⟩
        have hw : w = w2 ++ ['/'] := by
          have h2 : w ++ ['/'] = (w2 ++ ['/']) ++ ['/'] := by simpa using h
          exact List.append_cancel_right h2
        rw [hw]
        simp [endsWith]
    · have h1 : formattedUrl (w ++ [c]) = w ++ [c] := by simp [formattedUrl, endsWith, hc]
      rw [h1]
      constructor
      · intro h
        simp [endsWith, hc] at h
      · rintro ⟨w2, h⟩
        have h2 : w ++ [c] = (w2 ++ ['/']) ++ ['/'] := by simpa using h
        have := List.append_inj_right' h2 rfl
        simp at this
        exact absurd this hc

theorem char_le_iff (a b : Char) : a ≤ b ↔ a.toNat ≤ b.toNat := by
  rw [Char.le_def]
  exact Iff.rfl

/-- The class `[a-f\d]` with the flag `i` is the set of the twenty-two
hexadecimal digit characters. -/
theorem isHexDigit_iff (c : Char) :
    isHexDigit c = true ↔ c ∈ "0123456789abcdefABCDEF".toList := by
  constructor
  · intro h
    unfold isHexDigit at h
    simp only [Bool.or_eq_true, Bool.and_eq_true, decide_eq_true_eq, char_le_iff] at h
    have hc : Char.ofNat c.toNat = c := Char.ofNat_toNat c
    generalize c.toNat = n at h hc
    have e1 : 'a'.toNat = 97 := rfl
    have e2 : 'f'.toNat = 102 := rfl
    have e3 : 'A'.toNat = 65 := rfl
    have e4 : 'F'.toNat = 70 := rfl
    have e5 : '0'.toNat = 48 := rfl
    have e6 : '9'.toNat = 57 := rfl
    rw [e1, e2, e3, e4, e5, e6] at h
    subst hc
    rcases h with (⟨h1, h2⟩ | ⟨h1, h2⟩) | ⟨h1, h2⟩ <;> interval_cases n <;> decide
  · intro h
    have hall : ∀ x ∈ "0123456789abcdefABCDEF".toList, isHexDigit x = true := by decide
    exact hall c h

theorem isHexDigit_eq_contains (c : Char) :
    "0123456789abcdefABCDEF".toList.contains c = isHexDigit c := by
  rw [Bool.eq_iff_iff, isHexDigit_iff]
  simp

theorem isHexDigit_ne_hash {c : Char} (h : isHexDigit c = true) : c ≠ '#' := by
  have hall : ∀ x ∈ "0123456789abcdefABCDEF".toList, x ≠ '#' := by decide
  exact hall c ((isHexDigit_iff c).1 h)

theorem isHexDigit_not_whiteSpace {c : Char} (h : isHexDigit c = true) :
    isWhiteSpace c = false := by
  have hall : ∀ x ∈ "0123456789abcdefABCDEF".toList, isWhiteSpace x = false := by decide
  exact hall c ((isHexDigit_iff c).1 h)

theorem isDigitOf_lt {c : Char} {v : Nat} (h : IsDigitOf c v) : v < 16 := by
  by_contra hn
  have h16 : 16 ≤ v := by omega
  have l1 : "0123456789abcdef".toList.length = 16 := by decide
  have l2 : "0123456789ABCDEF".toList.length = 16 := by decide
  rcases h with h | h
  · rw [List.getElem?_eq_none (by omega)] at h; cases h
  · rw [List.getElem?_eq_none (by omega)] at h; cases h

theorem isDigitOf_mem {c : Char} {v : Nat} (h : IsDigitOf c v) :
    (c, v) ∈ ("0123456789abcdef".toList.zip (List.range 16)) ++
      ("0123456789ABCDEF".toList.zip (List.range 16)) := by
  have hv := isDigitOf_lt h
  interval_cases v <;> rcases h with h | h <;>
    · obtain rfl : _ = c := Option.some.inj h
      decide

/-- A character that denotes the digit `v` is in the class of the patterns and
`parseInt` reads it as `v`. -/
theorem isDigitOf_facts {c : Char} {v : Nat} (h : IsDigitOf c v) :
    v < 16 ∧ isHexDigit c = true ∧ hexDigitValue c = v := by
  have hall : ∀ p ∈ ("0123456789abcdef".toList.zip (List.range 16)) ++
      ("0123456789ABCDEF".toList.zip (List.range 16)),
      p.2 < 16 ∧ isHexDigit p.1 = true ∧ hexDigitValue p.1 = p.2 := by decide
  exact hall (c, v) (isDigitOf_mem h)

theorem skipHash_cons_of_ne {c : Char} (t : JsString) (h : c ≠ '#') :
    skipHash (c :: t) = c :: t := by
  unfold skipHash
  split
  · rename_i heq
    simp only [List.cons.injEq] at heq
    exact absurd heq.1 h
  · rfl

theorem replaceShorthand_of_three {t : JsString} {r g b : Char}
    (ht : skipHash t = [r, g, b])
    (hr : isHexDigit r = true) (hg : isHexDigit g = true) (hb : isHexDigit b = true) :
    replaceShorthand t = [r, r, g, g, b, b] := by
  simp [replaceShorthand, shorthandExec, ht, hr, hg, hb]

theorem replaceShorthand_of_not_three {t : JsString}
    (ht : (skipHash t).length ≠ 3 ∨ (skipHash t).all isHexDigit = false) :
    replaceShorthand t = t := by
  unfold replaceShorthand shorthandExec
  rcases hds : skipHash t with _ | ⟨a, _ | ⟨b, _ | ⟨c, _ | ⟨d, l⟩⟩⟩⟩
  · rfl
  · rfl
  · rfl
  · rw [hds] at ht
    have hno : (isHexDigit a && isHexDigit b && isHexDigit c) = false := by
      rcases ht with ht | ht
      · simp at ht
      · simpa [Bool.and_assoc] using ht
    simp [hno]
  · rfl

theorem fullExec_of_six {t : JsString} {a b c d e f : Char}
    (ht : skipHash t = [a, b, c, d, e, f])
    (ha : isHexDigit a = true) (hb : isHexDigit b = true) (hc : isHexDigit c = true)
    (hd : isHexDigit d = true) (he : isHexDigit e = true) (hf : isHexDigit f = true) :
    fullExec t = some ([a, b], [c, d], [e, f]) := by
  simp [fullExec, ht, ha, hb, hc, hd, he, hf]

theorem fullExec_eq_none {t : JsString}
    (ht : (skipHash t).length ≠ 6 ∨ (skipHash t).all isHexDigit = false) :
    fullExec t = none := by
  unfold fullExec
  rcases hds : skipHash t with
    _ | ⟨a, _ | ⟨b, _ | ⟨c, _ | ⟨d, _ | ⟨e, _ | ⟨f, _ | ⟨g, l⟩⟩⟩⟩⟩⟩⟩
  · rfl
  · rfl
  · rfl
  · rfl
  · rfl
  · rfl
  · rw [hds] at ht
    have hno : (isHexDigit a && isHexDigit b && isHexDigit c &&
        isHexDigit d && isHexDigit e && isHexDigit f) = false := by
      rcases ht with ht | ht
      · simp at ht
      · simpa [Bool.and_assoc] using ht
    simp [hno]
  · rfl

/-- The result of `hexToRgb` on a string whose trimmed form is six digits
after the optional `#`. -/
theorem hexToRgb_of_six {s : JsString} {a b c d e f : Char}
    (ht : skipHash (trim s) = [a, b, c, d, e, f])
    (ha : isHexDigit a = true) (hb : isHexDigit b = true) (hc : isHexDigit c = true)
    (hd : isHexDigit d = true) (he : isHexDigit e = true) (hf : isHexDigit f = true) :
    hexToRgb (JsValue.string s) =
      some [16 * hexDigitValue a + hexDigitValue b, 16 * hexDigitValue c + hexDigitValue d,
        16 * hexDigitValue e + hexDigitValue f] := by
  have hrep : replaceShorthand (trim s) = trim s :=
    replaceShorthand_of_not_three (Or.inl (by rw [ht]; simp))
  simp [hexToRgb, JsValue.toJsString, hrep, fullExec_of_six ht ha hb hc hd he hf, parseInt16]

/-- The result of `hexToRgb` on a string whose trimmed form is three digits
after the optional `#`. -/
theorem hexToRgb_of_three {s : JsString} {r g b : Char}
    (ht : skipHash (trim s) = [r, g, b])
    (hr : isHexDigit r = true) (hg : isHexDigit g = true) (hb : isHexDigit b = true) :
    hexToRgb (JsValue.string s) =
      some [16 * hexDigitValue r + hexDigitValue r, 16 * hexDigitValue g + hexDigitValue g,
        16 * hexDigitValue b + hexDigitValue b] := by
  have hrep := replaceShorthand_of_three ht hr hg hb
  have hskip : skipHash [r, r, g, g, b, b] = [r, r, g, g, b, b] :=
    skipHash_cons_of_ne _ (isHexDigit_ne_hash hr)
  simp [hexToRgb, JsValue.toJsString, hrep, fullExec_of_six hskip hr hr hg hg hb hb, parseInt16]

/-- The function `hexToRgb` returns an array exactly on the hex colours. -/
theorem hexToRgb_isSome (s : JsString) :
    (hexToRgb (JsValue.string s)).isSome = isHexColour (trim s) := by
  have hspec : isHexColour (trim s) =
      (((skipHash (trim s)).length == 3 || (skipHash (trim s)).length == 6) &&
        (skipHash (trim s)).all isHexDigit) := by
    have hfun : (fun c => "0123456789abcdefABCDEF".toList.contains c) = isHexDigit :=
      funext isHexDigit_eq_contains
    unfold isHexColour isHexDigits
    rw [hfun]
    rcases trim s with _ | ⟨c, l⟩
    · rfl
    · by_cases hc : c = '#'
      · subst hc
        have h0 : isHexDigit '#' = false := by decide
        have hs : skipHash ('#' :: l) = l := rfl
        simp [h0, hs]
      · have hne : (some c == some '#') = false := by simpa using hc
        simp [skipHash_cons_of_ne l hc, hne]
  rw [hspec]
  by_cases hall : (skipHash (trim s)).all isHexDigit = true
  · by_cases h3 : (skipHash (trim s)).length = 3
    · obtain ⟨r, g, b, hds⟩ := List.length_eq_three.1 h3
      rw [hds] at hall
      simp only [List.all_cons, List.all_nil, Bool.and_true, Bool.and_eq_true] at hall
      rw [hexToRgb_of_three hds hall.1 hall.2.1 hall.2.2, hds]
      simp [hall.1, hall.2.1, hall.2.2]
    · by_cases h6 : (skipHash (trim s)).length = 6
      · rcases hds : skipHash (trim s) with
          _ | ⟨a, _ | ⟨b, _ | ⟨c, _ | ⟨d, _ | ⟨e, _ | ⟨f, _ | ⟨g, l⟩⟩⟩⟩⟩⟩⟩ <;>
          rw [hds] at h6 <;> simp at h6
        rw [hds] at hall
        simp only [List.all_cons, List.all_nil, Bool.and_true, Bool.and_eq_true] at hall
        obtain ⟨ha, hb, hc, hd, he, hf⟩ := hall
        rw [hexToRgb_of_six hds ha hb hc hd he hf]
        simp [ha, hb, hc, hd, he, hf]
      · have hrep : replaceShorthand (trim s) = trim s :=
          replaceShorthand_of_not_three (Or.inl h3)
        have hfull : fullExec (trim s) = none := fullExec_eq_none (Or.inl h6)
        simp [hexToRgb, JsValue.toJsString, hrep, hfull, h3, h6]
  · have hall0 : (skipHash (trim s)).all isHexDigit = false := by simpa using hall
    have hrep : replaceShorthand (trim s) = trim s :=
      replaceShorthand_of_not_three (Or.inr hall0)
    have hfull : fullExec (trim s) = none := fullExec_eq_none (Or.inr hall0)
    simp [hexToRgb, JsValue.toJsString, hrep, hfull, hall0]

theorem hexToRgb_length {v : JsValue} {rgb : List Nat} (h : hexToRgb v = some rgb) :
    rgb.length = 3 := by
  unfold hexToRgb at h
  simp only at h
  rcases hf : fullExec (replaceShorthand (trim v.toJsString)) with _ | ⟨g1, g2, g3⟩
  · rw [hf] at h
    cases h
  · rw [hf] at h
    simp only [Option.some.injEq] at h
    rw [← h]
    rfl

theorem skipHash_of_digits {t ds : JsString} {c : Char} (hc : isHexDigit c = true)
    (ht : t = c :: ds ∨ t = '#' :: c :: ds) : skipHash t = c :: ds := by
  rcases ht with rfl | rfl
  · exact skipHash_cons_of_ne ds (isHexDigit_ne_hash hc)
  · rfl

theorem trim_six_digits {a b c d e f : Char}
    (ha : isHexDigit a = true) (hf : isHexDigit f = true) :
    trim [a, b, c, d, e, f] = [a, b, c, d, e, f] := by
  simp [trim, isHexDigit_not_whiteSpace ha, isHexDigit_not_whiteSpace hf]

theorem orElse_some_of_ne_nil {s : JsString} (h : s ≠ []) (d : JsString) :
    orElse (some s) d = s := by
  cases s with
  | nil => exact absurd rfl h
  | cons c cs => rfl

end ColourAux

/-! ## The claims about the middleware URL and the theme colours -/

/-- C11, at the failing input. With the middleware enabled, a key set and the
middleware URL `https://mw.example//`, the value `formattedUrl` computed by
`getApiBaseUrl` is `https://mw.example/` and is what `getApiBaseUrl()`
returns: both end with `/`, whereas the claim, like the comment of line 59,
says that the formatted URL has no trailing slash. -/
theorem formattedUrl_double_slash_failing_input :
    parseBoolean (JsValue.ofEnv doubleSlashEnv.VITE_API_MIDDLEWARE_ENABLED) false = true ∧
      truthy doubleSlashEnv.VITE_API_MIDDLEWARE_URL = true ∧
      truthy doubleSlashEnv.VITE_API_MIDDLEWARE_KEY = true ∧
      formattedUrl (trim "https://mw.example//".toList) = "https://mw.example/".toList ∧
      endsWith (formattedUrl (trim "https://mw.example//".toList)) '/' = true ∧
      getApiBaseUrl doubleSlashEnv none none = "https://mw.example/".toList ∧
      endsWith (getApiBaseUrl doubleSlashEnv none none) '/' = true := by
  decide

/-- C12. For every string whose trimmed form is an optional `#` followed by six
hexadecimal digits of values `v1`..`v6`, `hexToRgb` returns
`[16*v1+v2, 16*v3+v4, 16*v5+v6]`, each component at most 255; and when the
trimmed form is an optional `#` followed by three hexadecimal digits `r`, `g`,
`b` it returns what it returns for `rrggbb`, that is `[17*r, 17*g, 17*b]`. -/
theorem hexToRgb_hex_colour (s : JsString) :
    (∀ (d1 d2 d3 d4 d5 d6 : Char) (v1 v2 v3 v4 v5 v6 : Nat),
      IsDigitOf d1 v1 → IsDigitOf d2 v2 → IsDigitOf d3 v3 →
      IsDigitOf d4 v4 → IsDigitOf d5 v5 → IsDigitOf d6 v6 →
      (trim s = [d1, d2, d3, d4, d5, d6] ∨ trim s = ['#', d1, d2, d3, d4, d5, d6]) →
      hexToRgb (JsValue.string s) = some [16 * v1 + v2, 16 * v3 + v4, 16 * v5 + v6] ∧
        16 * v1 + v2 ≤ 255 ∧ 16 * v3 + v4 ≤ 255 ∧ 16 * v5 + v6 ≤ 255) ∧
    (∀ (r g b : Char) (vr vg vb : Nat),
      IsDigitOf r vr → IsDigitOf g vg → IsDigitOf b vb →
      (trim s = [r, g, b] ∨ trim s = ['#', r, g, b]) →
      hexToRgb (JsValue.string s) = hexToRgb (JsValue.string [r, r, g, g, b, b]) ∧
        hexToRgb (JsValue.string s) = some [17 * vr, 17 * vg, 17 * vb]) := by
  constructor
  · intro d1 d2 d3 d4 d5 d6 v1 v2 v3 v4 v5 v6 h1 h2 h3 h4 h5 h6 ht
    obtain ⟨l1, x1, e1⟩ := isDigitOf_facts h1
    obtain ⟨l2, x2, e2⟩ := isDigitOf_facts h2
    obtain ⟨l3, x3, e3⟩ := isDigitOf_facts h3
    obtain ⟨l4, x4, e4⟩ := isDigitOf_facts h4
    obtain ⟨l5, x5, e5⟩ := isDigitOf_facts h5
    obtain ⟨l6, x6, e6⟩ := isDigitOf_facts h6
    refine ⟨?_, by omega, by omega, by omega⟩
    rw [hexToRgb_of_six (skipHash_of_digits x1 ht) x1 x2 x3 x4 x5 x6, e1, e2, e3, e4, e5, e6]
  · intro r g b vr vg vb hr hg hb ht
    obtain ⟨-, xr, er⟩ := isDigitOf_facts hr
    obtain ⟨-, xg, eg⟩ := isDigitOf_facts hg
    obtain ⟨-, xb, eb⟩ := isDigitOf_facts hb
    have hthree := hexToRgb_of_three (skipHash_of_digits xr ht) xr xg xb
    have hsix : hexToRgb (JsValue.string [r, r, g, g, b, b]) =
        some [16 * hexDigitValue r + hexDigitValue r, 16 * hexDigitValue g + hexDigitValue g,
          16 * hexDigitValue b + hexDigitValue b] :=
      hexToRgb_of_six
        (skipHash_of_digits xr (Or.inl (trim_six_digits xr xb))) xr xr xg xg xb xb
    refine ⟨hthree.trans hsix.symm, ?_⟩
    rw [hthree, er, eg, eb]
    have a1 : 16 * vr + vr = 17 * vr := by omega
    have a2 : 16 * vg + vg = 17 * vg := by omega
    have a3 : 16 * vb + vb = 17 * vb := by omega
    rw [a1, a2, a3]

/-- The default colour `#355cc2` written with blanks and mixed case, and the
short colour `#FfA`. -/
theorem hexToRgb_hex_colour_witness :
    (hexToRgb (JsValue.string " #355Cc2 ".toList) = some [53, 92, 194] ∧
        16 * 3 + 5 ≤ 255 ∧ 16 * 5 + 12 ≤ 255 ∧ 16 * 12 + 2 ≤ 255) ∧
      (hexToRgb (JsValue.string "#FfA".toList) = hexToRgb (JsValue.string "FFffAA".toList) ∧
        hexToRgb (JsValue.string "#FfA".toList) = some [255, 255, 170]) :=
  ⟨(hexToRgb_hex_colour " #355Cc2 ".toList).1 '3' '5' '5' 'C' 'c' '2' 3 5 5 12 12 2
      (by decide) (by decide) (by decide) (by decide) (by decide) (by decide)
      (Or.inr (by decide)),
    (hexToRgb_hex_colour "#FfA".toList).2 'F' 'f' 'A' 15 15 10
      (by decide) (by decide) (by decide) (Or.inr (by decide))⟩

/-- C13, as stated, fails at the empty string: it is not a hex colour,
`hexToRgb('')` is `undefined` and `calculateThemeColors('')` raises, yet with
`VITE_PRIMARY_COLOR` set to `''` the object `THEME_CONFIG` is built, from the
default colour `#355cc2`. -/
theorem calculateThemeColors_empty_counterexample :
    isHexColour (trim []) = false ∧
      hexToRgb (JsValue.string []) = none ∧
      calculateThemeColors [] = Except.error JsError.typeError ∧
      THEME_CONFIG none (some []) = THEME_CONFIG none (some "#355cc2".toList) ∧
      (THEME_CONFIG none (some [])).toBool = true ∧
      (THEME_CONFIG none (some [])).toOption.map (fun c => c.light.colors.primaryColorRgb) =
        some "53, 92, 194".toList := by
  decide

/-- C13, amended. For every string `primaryColor`, `calculateThemeColors`
returns a colour record, whose `primaryColorRgb` is the three components of
`hexToRgb(primaryColor)` joined by `', '`, if and only if the trimmed string is
an optional `#` followed by exactly three or exactly six hexadecimal digits;
for every other string `hexToRgb` returns `undefined` and
`calculateThemeColors` raises, and building `THEME_CONFIG` fails when
`VITE_PRIMARY_COLOR` is such a string and is not empty; an unset or empty
`VITE_PRIMARY_COLOR` is replaced by the default `#355cc2` and `THEME_CONFIG` is
built. -/
theorem calculateThemeColors_hex_colour (primaryColor : JsString)
    (VITE_DEFAULT_THEME : Option JsString) :
    ((∃ record, calculateThemeColors primaryColor = Except.ok record ∧
        ∃ rgb, hexToRgb (JsValue.string primaryColor) = some rgb ∧ rgb.length = 3 ∧
          record.primaryColorRgb = joinRgb rgb) ↔
      isHexColour (trim primaryColor) = true) ∧
    (isHexColour (trim primaryColor) = false →
      hexToRgb (JsValue.string primaryColor) = none ∧
        calculateThemeColors primaryColor = Except.error JsError.typeError ∧
        (primaryColor ≠ [] →
          THEME_CONFIG VITE_DEFAULT_THEME (some primaryColor) =
            Except.error JsError.typeError)) ∧
    (THEME_CONFIG VITE_DEFAULT_THEME none =
        THEME_CONFIG VITE_DEFAULT_THEME (some "#355cc2".toList) ∧
      THEME_CONFIG VITE_DEFAULT_THEME (some []) =
        THEME_CONFIG VITE_DEFAULT_THEME (some "#355cc2".toList) ∧
      ∃ config, THEME_CONFIG VITE_DEFAULT_THEME (some "#355cc2".toList) = Except.ok config) := by
  have hsome := hexToRgb_isSome primaryColor
  refine ⟨⟨?_, ?_⟩, ?_, rfl, rfl, ?_⟩
  · rintro ⟨record, -, rgb, hrgb, -, -⟩
    rw [← hsome, hrgb]
    rfl
  · intro hhex
    rw [← hsome] at hhex
    obtain ⟨rgb, hrgb⟩ := Option.isSome_iff_exists.1 hhex
    have hcalc : ∃ record, calculateThemeColors primaryColor = Except.ok record ∧
        record.primaryColorRgb = joinRgb rgb := by
      unfold calculateThemeColors
      rw [hrgb]
      exact ⟨_, rfl, rfl⟩
    obtain ⟨record, h1, h2⟩ := hcalc
    exact ⟨record, h1, rgb, hrgb, hexToRgb_length hrgb, h2⟩
  · intro hhex
    rw [← hsome] at hhex
    have hnone : hexToRgb (JsValue.string primaryColor) = none := by
      cases hv : hexToRgb (JsValue.string primaryColor) with
      | none => rfl
      | some rgb => rw [hv] at hhex; cases hhex
    have hcalc : calculateThemeColors primaryColor = Except.error JsError.typeError := by
      unfold calculateThemeColors
      rw [hnone]
    refine ⟨hnone, hcalc, ?_⟩
    intro hne
    unfold THEME_CONFIG
    simp only [orElse_some_of_ne_nil hne, hcalc]
  · have hok : ∃ record, calculateThemeColors "#355cc2".toList = Except.ok record :=
      ⟨_, rfl⟩
    obtain ⟨record, hrec⟩ := hok
    have he : orElse (some "#355cc2".toList) "#355cc2".toList = "#355cc2".toList := rfl
    unfold THEME_CONFIG
    simp only [he, hrec]
    exact ⟨_, rfl⟩

/-- The colour names `red` and `rgb(1,2,3)` and an eight-digit colour make
`calculateThemeColors` and the construction of `THEME_CONFIG` fail; `#fff`
makes them succeed. -/
theorem calculateThemeColors_hex_colour_witness :
    (isHexColour (trim "red".toList) = false ∧
        hexToRgb (JsValue.string "red".toList) = none ∧
        calculateThemeColors "red".toList = Except.error JsError.typeError ∧
        THEME_CONFIG none (some "red".toList) = Except.error JsError.typeError) ∧
      calculateThemeColors "rgb(1,2,3)".toList = Except.error JsError.typeError ∧
      calculateThemeColors "#12345678".toList = Except.error JsError.typeError ∧
      (calculateThemeColors " #fff".toList).toOption.map (fun r => r.primaryColorRgb) =
        some "255, 255, 255".toList :=
  ⟨⟨by decide,
      ((calculateThemeColors_hex_colour "red".toList none).2.1 (by decide)).1,
      ((calculateThemeColors_hex_colour "red".toList none).2.1 (by decide)).2.1,
      ((calculateThemeColors_hex_colour "red".toList none).2.1 (by decide)).2.2 (by decide)⟩,
    ((calculateThemeColors_hex_colour "rgb(1,2,3)".toList none).2.1 (by decide)).2.1,
    ((calculateThemeColors_hex_colour "#12345678".toList none).2.1 (by decide)).2.1,
    by decide⟩

end EZTheme
